import Mathlib

/-!
Verification of the soLite SMS-wallet settlement engine.

This file gives a shallow embedding, in Lean, of the data model and the
operations of the soLite repository (a custodial Solana wallet driven by
SMS commands), and proves or refutes the frozen specification claims
about it.  Database tables become lists of row structures, stateful
service functions become pure functions from a `DB` state to a result
paired with a new state, and the external collaborators (Solana RPC,
Twilio, the crypto library address check) become explicit oracle
parameters.  Monetary amounts are rationals, mirroring the fixed-point
DECIMAL columns; timestamps are natural numbers (minutes).
-/

namespace SoLite

/-! ## Basic string helpers (JS semantics on ASCII text) -/

/-- JS `s.substring(0, n)` on ASCII text: the first `n` characters. -/
def strTake (s : String) (n : Nat) : String :=
  String.mk (s.toList.take n)

/-- JS `s.substring(n)` on ASCII text: drop the first `n` characters. -/
def strDrop (s : String) (n : Nat) : String :=
  String.mk (s.toList.drop n)

/-- JS `toUpperCase()` on ASCII text, character by character. -/
def jsToUpper (s : String) : String := String.mk (s.toList.map Char.toUpper)

/-- JS `toLowerCase()` on ASCII text, character by character. -/
def jsToLower (s : String) : String := String.mk (s.toList.map Char.toLower)

/-- JS `trim()`: strip leading and trailing whitespace. -/
def jsTrim (s : String) : String :=
  String.mk (((s.toList.dropWhile Char.isWhitespace).reverse.dropWhile
    Char.isWhitespace).reverse)

/-- Split a character list at every occurrence of `sep`, keeping empty
segments, exactly as JS `split(sep)` does. -/
def splitOnChar (sep : Char) : List Char → List (List Char)
  | [] => [[]]
  | c :: cs =>
    if c = sep then [] :: splitOnChar sep cs
    else
      match splitOnChar sep cs with
      | [] => [[c]]
      | w :: ws => (c :: w) :: ws

/-- JS `split(' ')`. -/
def jsSplitSpace (s : String) : List String :=
  (splitOnChar ' ' s.toList).map String.mk

/-- JS `startsWith(pat)`. -/
def jsStartsWith (s pat : String) : Bool :=
  pat.toList.isPrefixOf s.toList

/-- JS `join(' ')` on a list of strings. -/
def jsJoinSpace : List String → String
  | [] => ""
  | [x] => x
  | x :: xs => x ++ " " ++ jsJoinSpace xs

/-- JS `String.prototype.padEnd(n, ' ')` at the character-list level:
append spaces until the length is at least `n`. -/
def padEnd (l : List Char) (n : Nat) : List Char :=
  l ++ List.replicate (n - l.length) ' '

/-- First index (in characters) at which `pat` occurs in `s`,
JS `s.indexOf(pat)` returning `none` for `-1`. -/
def firstIndexOfAux (pat : List Char) : List Char → Nat → Option Nat
  | [], i => if pat = [] then some i else none
  | c :: cs, i =>
    if pat.isPrefixOf (c :: cs) then some i else firstIndexOfAux pat cs (i + 1)

def firstIndexOf (s pat : String) : Option Nat :=
  firstIndexOfAux pat.toList s.toList 0

/-! ## Data model: the Postgres tables of `database.sql` as row lists -/

/-- A row of the `users` table (the columns the core reads). -/
structure UserRow where
  id : Nat
  phoneNumber : String
  /-- `pin VARCHAR(6)`, nullable. -/
  pin : Option String
  pinVerified : Bool
  twoFactorEnabled : Bool
  /-- `notification_preferences JSONB`, an object of boolean fields,
  modelled as an association list keyed by the JSON field name. -/
  prefs : List (String × Bool)
  deriving Repr, DecidableEq

/-- A row of the `wallets` table. -/
structure WalletRow where
  id : Nat
  userId : Nat
  publicKey : String
  isActive : Bool
  createdAt : Nat
  deriving Repr, DecidableEq

/-- A row of the `contacts` table. -/
structure ContactRow where
  userId : Nat
  aliasName : String
  walletAddress : String
  deriving Repr, DecidableEq

/-- A row of the `transactions` table. -/
structure TxRow where
  walletId : Nat
  txType : String
  tokenType : String
  amount : ℚ
  recipientAddress : Option String
  senderAddress : Option String
  signature : Option String
  status : String
  createdAt : Nat
  deriving Repr, DecidableEq

/-- A row of the `notification_queue` table. -/
structure NotifRow where
  userId : Nat
  notifType : String
  message : String
  isSent : Bool
  retryCount : Nat
  maxRetries : Nat
  nextRetryAt : Option Nat
  createdAt : Nat
  sentAt : Option Nat
  deriving Repr, DecidableEq

/-- A row of the `message_logs` table. -/
structure MessageLog where
  phoneNumber : String
  content : String
  direction : String
  deriving Repr, DecidableEq

/-- The persistent database state.  Each list holds the rows of one
table, in insertion (`created_at`) order: every INSERT appends. -/
structure DB where
  users : List UserRow
  wallets : List WalletRow
  contacts : List ContactRow
  transactions : List TxRow
  notifQueue : List NotifRow
  messageLogs : List MessageLog
  deriving Repr, DecidableEq

/-- `SELECT ... FROM users WHERE phone_number = $1` (phone numbers are
unique, so the first match is the row). -/
def lookupUser (db : DB) (phone : String) : Option UserRow :=
  db.users.find? (fun u => u.phoneNumber = phone)

/-- `SELECT ... FROM users WHERE id = $1`. -/
def lookupUserById (db : DB) (uid : Nat) : Option UserRow :=
  db.users.find? (fun u => u.id = uid)

/-- Replace the user row with the given id (SQL `UPDATE users ... WHERE id`). -/
def updateUser (db : DB) (uid : Nat) (f : UserRow → UserRow) : DB :=
  { db with users := db.users.map (fun u => if u.id = uid then f u else u) }

/-! ## notificationService.ts -/

/-- `queueNotification(userId, type, message)`: reads the user's
`notification_preferences`, skips the insert when the preference keyed by
`type.toLowerCase()` is explicitly `false`, otherwise appends a queue row
with `next_retry_at = NOW()`.  Returns the inserted flag and the new
state.  Note the lookup key is the lowercased enum value — for
`NotificationType.TRANSACTION` this is the singular `"transaction"`. -/
def queueNotification (now : Nat) (db : DB) (userId : Nat) (ntype : String)
    (message : String) : Bool × DB :=
  match lookupUserById db userId with
  | none => (false, db)
  | some u =>
    let typeKey := jsToLower ntype
    match u.prefs.lookup typeKey with
    | some false => (false, db)
    | _ =>
      (true, { db with notifQueue := db.notifQueue ++
        [{ userId := userId, notifType := ntype, message := message,
           isSent := false, retryCount := 0, maxRetries := 3,
           nextRetryAt := some now, createdAt := now, sentAt := none }] })

/-- `queueTransactionNotification`: formats the alert text and calls
`queueNotification` with type `'TRANSACTION'`. -/
def queueTransactionNotification (now : Nat) (db : DB) (userId : Nat)
    (txType : String) (amount : ℚ) (tokenType : String)
    (counterparty : String) : Bool × DB :=
  let action := if txType = "SEND" then "sent to" else "received from"
  let shortAddress :=
    strTake counterparty 4 ++ "..." ++ strDrop counterparty (counterparty.length - 4)
  let message := s!"SolaText Alert: {amount} {tokenType} {action} {shortAddress}"
  queueNotification now db userId "TRANSACTION" message

/-- `queueSecurityNotification`. -/
def queueSecurityNotification (now : Nat) (db : DB) (userId : Nat)
    (message : String) : Bool × DB :=
  queueNotification now db userId "SECURITY" ("SolaText Security: " ++ message)

/-! ## authService.ts -/

/-- Result shape `{ success, message }` (plus optional pin). -/
structure AuthResult where
  success : Bool
  pin : Option String
  message : String
  deriving Repr, DecidableEq

/-- The PIN comparison of `verifyPin`:
`crypto.timingSafeEqual(Buffer.from(pin.padEnd(storedPin.length, ' ')),
Buffer.from(storedPin.padEnd(pin.length, ' ')))` — each side is padded
with spaces to the other's length, then compared bytewise. -/
def pinMatches (candidate stored : String) : Bool :=
  padEnd candidate.toList stored.length = padEnd stored.toList candidate.length

/-- `verifyPin(phoneNumber, pin)` (authService.ts lines 97-154). -/
def verifyPin (now : Nat) (db : DB) (phone pin : String) : AuthResult × DB :=
  match lookupUser db phone with
  | none =>
    ({ success := false, pin := none,
       message := "User not found. Please create a wallet first." }, db)
  | some u =>
    match u.pin with
    | none =>
      ({ success := false, pin := none,
         message := "No PIN has been set. Send SETUP PIN to create one." }, db)
    | some storedPin =>
      if pinMatches pin storedPin then
        if u.pinVerified then
          ({ success := true, pin := none,
             message := "PIN already verified. Your account is secure." }, db)
        else
          let db := updateUser db u.id (fun v => { v with pinVerified := true })
          let (_, db) := queueSecurityNotification now db u.id
            "Your PIN has been verified. Your account is now secure."
          ({ success := true, pin := none,
             message := "PIN verified successfully. Your account is now secure." }, db)
      else
        ({ success := false, pin := none,
           message := "Incorrect PIN. Please try again." }, db)

/-- `setupPin(phoneNumber)` (authService.ts lines 38-90).  The freshly
generated random PIN is an oracle argument `newPin`. -/
def setupPin (now : Nat) (newPin : String) (db : DB) (phone : String) :
    AuthResult × DB :=
  match lookupUser db phone with
  | none =>
    ({ success := false, pin := none,
       message := "User not found. Please create a wallet first." }, db)
  | some u =>
    match u.pin with
    | some _ =>
      ({ success := false, pin := none,
         message := "PIN already exists. Use VERIFY PIN <your-pin> to verify your PIN." }, db)
    | none =>
      let db := updateUser db u.id
        (fun v => { v with pin := some newPin, pinVerified := false })
      let (_, db) := queueSecurityNotification now db u.id
        "A new PIN has been set up for your account. NEVER share your PIN with anyone."
      ({ success := true, pin := some newPin,
         message := s!"Your new PIN is {newPin}. Use VERIFY PIN {newPin} to activate it." }, db)

/-- Result shape of `requirePin`: `{ verified, message? }`. -/
structure PinCheck where
  verified : Bool
  message : Option String
  deriving Repr, DecidableEq

/-- `requirePin(phoneNumber)` (authService.ts lines 160-201): a pure read. -/
def requirePin (db : DB) (phone : String) : PinCheck :=
  match lookupUser db phone with
  | none =>
    { verified := false,
      message := some "User not found. Please create a wallet first." }
  | some u =>
    match u.pin with
    | none =>
      { verified := false,
        message := some "Security not set up. Send SETUP PIN to secure your wallet." }
    | some _ =>
      if u.pinVerified then { verified := true, message := none }
      else
        { verified := false,
          message := some "PIN not verified. Use VERIFY PIN <your-pin> to verify." }

/-! ## contactService.ts -/

structure ContactResult where
  success : Bool
  message : String
  deriving Repr, DecidableEq

/-- Alias normalisation of `addContact`/`resolveAlias`: trim, then uppercase. -/
def normalizeAlias (a : String) : String := jsToUpper (jsTrim a)

/-- `addContact(phoneNumber, alias, walletAddress)` (contactService.ts
lines 11-64).  The `new PublicKey(...)` format check of the external
`@solana/web3.js` library is the oracle `validAddress`. -/
def addContact (validAddress : String → Bool) (db : DB)
    (phone aliasText walletAddress : String) : ContactResult × DB :=
  if ¬ validAddress walletAddress then
    ({ success := false, message := "Invalid wallet address format" }, db)
  else
    let na := normalizeAlias aliasText
    match lookupUser db phone with
    | none =>
      ({ success := false, message := "User not found. Please create a wallet first." }, db)
    | some u =>
      if db.contacts.any (fun c => c.userId = u.id ∧ c.aliasName = na) then
        ({ success := true, message := s!"Updated contact \"{na}\" with new address" },
         { db with contacts := db.contacts.map (fun c =>
             if c.userId = u.id ∧ c.aliasName = na
             then { c with walletAddress := walletAddress } else c) })
      else
        ({ success := true, message := s!"Added \"{na}\" to your contacts" },
         { db with contacts := db.contacts ++
             [{ userId := u.id, aliasName := na, walletAddress := walletAddress }] })

/-- `resolveAlias(phoneNumber, alias)` (contactService.ts lines 93-119):
a pure lookup joining contacts with users. -/
def resolveAlias (db : DB) (phone aliasText : String) : Option String :=
  let na := normalizeAlias aliasText
  (db.contacts.find? (fun c =>
      ((lookupUserById db c.userId).map (·.phoneNumber) = some phone) ∧
        c.aliasName = na)).map (·.walletAddress)

/-! ## walletService.ts -/

/-- `getWalletByPhoneNumber` (walletService.ts lines 67-89): the active
wallet rows of the user, `ORDER BY created_at DESC LIMIT 1`. -/
def getWalletByPhoneNumber (db : DB) (phone : String) : Option WalletRow :=
  (((db.wallets.filter (fun w => w.isActive ∧
      (lookupUserById db w.userId).map (·.phoneNumber) = some phone)).insertionSort
    (fun a b => b.createdAt ≤ a.createdAt))).head?

/-! ## transactionService.ts -/

/-- Token metadata as returned by `tokenService.getTokenBySymbol`. -/
structure TokenInfo where
  mintAddress : String
  symbol : String
  decimals : Nat
  deriving Repr, DecidableEq

/-- The external collaborators of `sendTokens`: the address check, key
decryption, the Solana RPC calls, the token registry lookups, and the
outcome of the final `COMMIT` on the client connection.  `Except.error`
models a thrown exception carrying its message. -/
structure SendEnv where
  now : Nat
  validAddress : String → Bool
  decrypt : Except String Unit
  solBalance : String → ℚ
  sendSol : String → ℚ → Except String String
  getTokenBySymbol : String → Option TokenInfo
  tokenBalance : String → String → ℚ
  sendSplToken : String → ℚ → String → Except String String
  commit : Option String

structure SendResult where
  success : Bool
  message : String
  signature : Option String
  deriving Repr, DecidableEq

/-- `sendTokens(phoneNumber, amount, tokenType, recipientAddress)`
(transactionService.ts lines 16-152).  The function opens a transaction
on a dedicated client; the transaction-record INSERT goes through that
client (it is `pending` until COMMIT), while
`queueTransactionNotification` goes through the pool (`db.query`), so
the notification row takes effect immediately, outside the client's
transaction, and survives a ROLLBACK.  Numeric interpolation in the
user-facing messages elides the JS `toFixed(6)` formatting. -/
def sendTokens (env : SendEnv) (db : DB) (phone : String) (amount : ℚ)
    (tokenType recipientAddress : String) : SendResult × DB :=
  if amount ≤ 0 then
    ({ success := false, message := "Amount must be greater than 0", signature := none }, db)
  else if ¬ env.validAddress recipientAddress then
    ({ success := false, message := "Invalid recipient address", signature := none }, db)
  else
    match getWalletByPhoneNumber db phone with
    | none =>
      ({ success := false, message := "No wallet found. Send CREATE to create a new wallet.",
         signature := none }, db)
    | some wallet =>
      match db.wallets.find? (fun w => w.publicKey = wallet.publicKey) with
      | none =>
        ({ success := false, message := "Wallet not found", signature := none }, db)
      | some w =>
        match lookupUserById db w.userId with
        | none =>
          ({ success := false, message := "Wallet not found", signature := none }, db)
        | some user =>
          match env.decrypt with
          | .error e =>
            ({ success := false, message := "Transaction failed: " ++ e,
               signature := none }, db)
          | .ok _ =>
            let normalized := jsToUpper tokenType
            -- shared tail: record the transaction (client), queue the
            -- notification (pool), COMMIT
            let recordAndNotify : String → String → SendResult × DB :=
              fun sig storedTok =>
                let pending : List TxRow :=
                  [{ walletId := w.id, txType := "SEND", tokenType := storedTok,
                     amount := amount, recipientAddress := some recipientAddress,
                     senderAddress := none, signature := some sig,
                     status := "COMPLETED", createdAt := env.now }]
                let (_, db1) := queueTransactionNotification env.now db user.id
                  "SEND" amount normalized recipientAddress
                match env.commit with
                | none =>
                  let short := strTake recipientAddress 5 ++ "..." ++
                    strDrop recipientAddress (recipientAddress.length - 3)
                  let sigShort := strTake sig 8
                  ({ success := true,
                     message := s!"Sent {amount} {normalized} to {short}. Tx: {sigShort}...",
                     signature := some sig },
                   { db1 with transactions := db1.transactions ++ pending })
                | some e =>
                  -- COMMIT threw: catch block does ROLLBACK, the pending
                  -- client insert is discarded, the pool insert stays
                  ({ success := false, message := "Transaction failed: " ++ e,
                     signature := none }, db1)
            if normalized = "SOL" then
              let balance := env.solBalance wallet.publicKey
              if balance < amount then
                ({ success := false,
                   message := s!"Insufficient SOL balance. Required: {amount}, Available: {balance}",
                   signature := none }, db)
              else
                match env.sendSol recipientAddress amount with
                | .error e =>
                  ({ success := false, message := "Transaction failed: " ++ e,
                     signature := none }, db)
                | .ok sig => recordAndNotify sig "SOL"
            else
              match env.getTokenBySymbol normalized with
              | none =>
                if normalized = "USDC" then
                  ({ success := false, message := "USDC token not configured in system",
                     signature := none }, db)
                else
                  ({ success := false,
                     message := s!"Unsupported token: {normalized}. Send TOKENS to see supported tokens.",
                     signature := none }, db)
              | some token =>
                let balance := env.tokenBalance wallet.publicKey token.mintAddress
                if balance < amount then
                  ({ success := false,
                     message := s!"Insufficient {normalized} balance. Required: {amount}, Available: {balance}",
                     signature := none }, db)
                else
                  match env.sendSplToken recipientAddress amount token.mintAddress with
                  | .error e =>
                    ({ success := false, message := "Transaction failed: " ++ e,
                       signature := none }, db)
                  | .ok sig => recordAndNotify sig token.mintAddress

/-- `getTransactionHistory(phoneNumber)` (transactionService.ts lines
158-184): the wallet's transactions, `ORDER BY created_at DESC LIMIT 10`;
the empty list when the user has no active wallet. -/
def getTransactionHistory (db : DB) (phone : String) : List TxRow :=
  match getWalletByPhoneNumber db phone with
  | none => []
  | some w =>
    ((db.transactions.filter (fun t => t.walletId = w.id)).insertionSort
      (fun a b => b.createdAt ≤ a.createdAt)).take 10

/-- `recordIncomingTransaction(recipientAddress, senderAddress, amount,
tokenType, transactionSignature)` (transactionService.ts lines 267-319).
It looks up the recipient wallet, INSERTs a RECEIVE row through the
client, queues the notification through the pool, and COMMITs.  There is
no check whether a row with this signature already exists, and
`database.sql` puts no unique constraint on `transaction_signature`. -/
def recordIncomingTransaction (now : Nat) (db : DB)
    (recipientAddress senderAddress : String) (amount : ℚ)
    (tokenType signature : String) : Bool × DB :=
  match db.wallets.find? (fun w => w.publicKey = recipientAddress) with
  | none => (false, db)
  | some w =>
    let pending : List TxRow :=
      [{ walletId := w.id, txType := "RECEIVE", tokenType := tokenType,
         amount := amount, recipientAddress := none,
         senderAddress := some senderAddress, signature := some signature,
         status := "COMPLETED", createdAt := now }]
    let (_, db1) := queueTransactionNotification now db w.userId
      "RECEIVE" amount tokenType senderAddress
    (true, { db1 with transactions := db1.transactions ++ pending })

/-! ## webhookRoutes.ts: the transaction webhook handler -/

inductive WebhookStatus
  | badRequest | alreadyProcessed | success | notFound
  deriving Repr, DecidableEq

/-- The body of a transaction-observed webhook event. -/
structure IncomingTx where
  recipientAddress : String
  senderAddress : String
  amount : ℚ
  tokenType : String
  signature : String
  deriving Repr, DecidableEq

/-- `SELECT id FROM transactions WHERE transaction_signature = $1 LIMIT 1`
made boolean. -/
def hasSignature (db : DB) (sig : String) : Bool :=
  db.transactions.any (fun t => t.signature = some sig)

/-- The core of `handleTransaction` (webhookRoutes.ts lines 77-132), after
HMAC verification: the required-fields check (JS falsiness, so empty
strings and a zero amount are "missing"), then the dedup check against
existing signatures, then `recordIncomingTransaction`. -/
def webhookTransaction (now : Nat) (db : DB) (a : IncomingTx) :
    WebhookStatus × DB :=
  if a.recipientAddress = "" ∨ a.senderAddress = "" ∨ a.amount = 0 ∨
      a.tokenType = "" ∨ a.signature = "" then
    (.badRequest, db)
  else if hasSignature db a.signature then
    (.alreadyProcessed, db)
  else
    let (ok, db1) := recordIncomingTransaction now db a.recipientAddress
      a.senderAddress a.amount a.tokenType a.signature
    (if ok then .success else .notFound, db1)

/-! ## notificationService.ts: the delivery drain -/

/-- Outcome of one delivery attempt through the Messaging Gateway:
`sendSms` returned true, returned false, or threw. -/
inductive DeliveryOutcome
  | sent | failed | threw
  deriving Repr, DecidableEq

/-- The selection predicate of the drain query:
`is_sent = false AND next_retry_at <= NOW() AND retry_count < max_retries`
(a NULL `next_retry_at` compares to nothing, so such rows are not
selected). -/
def dueForRetry (now : Nat) (r : NotifRow) : Bool :=
  !r.isSent &&
    (match r.nextRetryAt with
     | some t => t ≤ now
     | none => false) &&
    r.retryCount < r.maxRetries

/-- The per-row update of `processNotificationQueue` (notificationService.ts
lines 83-144).  Time is in minutes, so the exponential backoff
`INTERVAL '2^n minutes'` is `now + 2 ^ n`.  On a thrown failure that
reaches `max_retries` the row is marked failed with `next_retry_at = NULL`. -/
def applyOutcome (now : Nat) (o : DeliveryOutcome) (r : NotifRow) : NotifRow :=
  match o with
  | .sent => { r with isSent := true, sentAt := some now }
  | .failed =>
    let n := r.retryCount + 1
    { r with retryCount := n, nextRetryAt := some (now + 2 ^ n) }
  | .threw =>
    let n := r.retryCount + 1
    if r.maxRetries ≤ n then
      { r with retryCount := n, isSent := false, nextRetryAt := none }
    else
      { r with retryCount := n, nextRetryAt := some (now + 2 ^ n) }

/-- `processNotificationQueue(limit)` (notificationService.ts lines
62-153) over the queue kept in `created_at` order: the first `budget` due
rows are selected (`ORDER BY created_at ASC LIMIT $1`) and updated
according to the delivery outcome; all other rows are untouched. -/
def processNotificationQueue (now : Nat) (deliver : NotifRow → DeliveryOutcome) :
    Nat → List NotifRow → List NotifRow
  | _, [] => []
  | budget, r :: rs =>
    if 0 < budget ∧ dueForRetry now r = true then
      applyOutcome now (deliver r) r ::
        processNotificationQueue now deliver (budget - 1) rs
    else
      r :: processNotificationQueue now deliver budget rs

/-! ## commandParser.ts -/

/-- The closed command-variant type (`CommandType` enum). -/
inductive CommandType
  | CREATE | BALANCE | SEND | HISTORY | SETUP_PIN | VERIFY_PIN | ADD_CONTACT
  | LIST_CONTACTS | ENABLE_2FA | DISABLE_2FA | NOTIFICATIONS | TOKENS | UNKNOWN
  deriving Repr, DecidableEq

/-- The object `parseCommand` returns: the command tag plus the optional
parsed fields. -/
structure ParsedCommand where
  command : CommandType
  amount : Option ℚ := none
  tokenType : Option String := none
  recipient : Option String := none
  pin : Option String := none
  contactAlias : Option String := none
  walletAddress : Option String := none
  notifSettings : List (String × Bool) := []
  deriving Repr, DecidableEq

/-- JS `parseFloat` at the SEND call site of `parseCommand`, where the
argument token was uppercased (so the case-sensitive `Infinity` literal
cannot match): optional sign, decimal mantissa, optional exponent;
trailing junk is ignored; `none` is `NaN`.  A mantissa needs at least one
digit before or after the dot; a malformed exponent is dropped and the
mantissa kept, as `parseFloat` does. -/
def parseFloatUpper (s : String) : Option ℚ :=
  let cs := s.toList
  let signed : ℚ × List Char :=
    match cs with
    | '-' :: rest => (-1, rest)
    | '+' :: rest => (1, rest)
    | _ => (1, cs)
  let sign := signed.1
  let cs0 := signed.2
  let intDigits := cs0.takeWhile Char.isDigit
  let cs1 := cs0.dropWhile Char.isDigit
  let fracSplit : List Char × List Char :=
    match cs1 with
    | '.' :: rest => (rest.takeWhile Char.isDigit, rest.dropWhile Char.isDigit)
    | _ => ([], cs1)
  let fracDigits := fracSplit.1
  let cs2 := fracSplit.2
  if intDigits = [] ∧ fracDigits = [] then none
  else
    let digitsVal : List Char → Nat :=
      fun l => l.foldl (fun n c => 10 * n + (c.toNat - 48)) 0
    let mantissa : ℚ :=
      (digitsVal intDigits : ℚ) + (digitsVal fracDigits : ℚ) / (10 : ℚ) ^ fracDigits.length
    let expDigits : List Char → ℤ := fun ds => (digitsVal (ds.takeWhile Char.isDigit) : ℤ)
    let expVal : ℤ :=
      match cs2 with
      | 'E' :: '-' :: ds => if ds.takeWhile Char.isDigit = [] then 0 else -(expDigits ds)
      | 'E' :: '+' :: ds => if ds.takeWhile Char.isDigit = [] then 0 else expDigits ds
      | 'E' :: ds => if ds.takeWhile Char.isDigit = [] then 0 else expDigits ds
      | 'e' :: '-' :: ds => if ds.takeWhile Char.isDigit = [] then 0 else -(expDigits ds)
      | 'e' :: '+' :: ds => if ds.takeWhile Char.isDigit = [] then 0 else expDigits ds
      | 'e' :: ds => if ds.takeWhile Char.isDigit = [] then 0 else expDigits ds
      | _ => 0
    some (sign * mantissa * (10 : ℚ) ^ expVal)

/-- `parseCommand(message)` (commandParser.ts lines 28-165).  The TS code
falls through to later checks when a nested condition inside a matched
keyword block fails; since no later keyword shares a matched keyword's
text, conjunctions reproduce that flow exactly.  Every fall-through ends
in `UNKNOWN`. -/
def parseCommand (message : String) : ParsedCommand :=
  let originalMessage := jsTrim message
  let normalizedMessage := jsToUpper originalMessage
  if normalizedMessage = "CREATE" then { command := .CREATE }
  else if normalizedMessage = "BALANCE" then { command := .BALANCE }
  else if normalizedMessage = "HISTORY" then { command := .HISTORY }
  else if normalizedMessage = "CONTACTS" then { command := .LIST_CONTACTS }
  else if normalizedMessage = "SETUP PIN" then { command := .SETUP_PIN }
  else if normalizedMessage = "ENABLE 2FA" then { command := .ENABLE_2FA }
  else if normalizedMessage = "DISABLE 2FA" then { command := .DISABLE_2FA }
  else if normalizedMessage = "TOKENS" then { command := .TOKENS }
  else if jsStartsWith normalizedMessage "VERIFY PIN " ∧
      (jsSplitSpace originalMessage).length = 3 then
    { command := .VERIFY_PIN,
      pin := some (jsTrim ((jsSplitSpace originalMessage).getD 2 "")) }
  else if jsStartsWith normalizedMessage "ADD CONTACT " ∧
      4 ≤ (jsSplitSpace originalMessage).length then
    let parts := jsSplitSpace originalMessage
    { command := .ADD_CONTACT,
      contactAlias := some (jsTrim (parts.getD 2 "")),
      walletAddress := some (jsTrim (jsJoinSpace (parts.drop 3))) }
  else if notifParse normalizedMessage originalMessage ≠ [] then
    { command := .NOTIFICATIONS,
      notifSettings := notifParse normalizedMessage originalMessage }
  else if jsStartsWith normalizedMessage "SEND " ∧ sendParse originalMessage ≠ none then
    match sendParse originalMessage with
    | some (q, tok, recip) =>
      { command := .SEND, amount := some q, tokenType := some tok,
        recipient := some recip }
    | none => { command := .UNKNOWN }
  else { command := .UNKNOWN }
where
  /-- The NOTIFICATIONS block (lines 102-129): `[]` means its nested
  conditions failed and control fell through. -/
  notifParse (normalizedMessage originalMessage : String) : List (String × Bool) :=
    if jsStartsWith normalizedMessage "NOTIFICATIONS " then
      let parts := jsSplitSpace originalMessage
      if 3 ≤ parts.length then
        let action := jsToUpper (parts.getD 1 "")
        let ptype := jsToLower (parts.getD 2 "")
        if action = "ON" ∨ action = "OFF" then
          let isEnabled := action = "ON"
          if ptype = "all" then
            [("transactions", isEnabled), ("security", isEnabled),
             ("marketing", isEnabled)]
          else if ptype = "transactions" ∨ ptype = "security" ∨ ptype = "marketing" then
            [(ptype, isEnabled)]
          else []
        else []
      else []
    else []
  /-- The SEND block (lines 132-161): split at the first `" to "`
  (case-insensitive), uppercase the first part, parse the amount;
  `none` means a nested condition failed and control fell through. -/
  sendParse (originalMessage : String) : Option (ℚ × String × String) :=
    match firstIndexOf (jsToLower originalMessage) " to " with
    | none => none
    | some toIndex =>
      let firstPart := jsToUpper (strTake originalMessage toIndex)
      let recipient := jsTrim (strDrop originalMessage (toIndex + 4))
      let firstPartTokens := jsSplitSpace firstPart
      if 3 ≤ firstPartTokens.length ∧ firstPartTokens.getD 0 "" = "SEND" then
        match parseFloatUpper (firstPartTokens.getD 1 "") with
        | none => none
        | some q => some (q, firstPartTokens.getD 2 "", recipient)
      else none

/-- The static help text returned for `UNKNOWN` (commandParser.ts
`getHelpMessage`). -/
def helpMessage : String :=
  "Available commands:\n\nCREATE - Create a new wallet\nBALANCE - Check your balances\nSEND <amount> <token> TO <recipient> - Send tokens\nHISTORY - View transaction history\nSETUP PIN - Set up your security PIN\nVERIFY PIN <pin> - Verify your PIN\nENABLE 2FA - Enable two-factor authentication\nDISABLE 2FA - Disable two-factor authentication\nADD CONTACT <alias> <address> - Save an address\nCONTACTS - List your saved contacts\nNOTIFICATIONS ON/OFF <type> - Update notification settings\nTOKENS - View supported tokens\n"

/-- Markers for the observable side operations a command handler performs
(ledger reads, submissions, history reads, ...). -/
inductive Effect
  | walletCreate | balanceQuery | sendAttempt | historyRead | listTokens
  | contactsRead | contactWrite | pinSetup | pinVerify | twoFactorOn
  | twoFactorOff | prefWrite
  deriving Repr, DecidableEq

/-- The per-command handlers of commandParser.ts (`handleCreateCommand`,
`handleBalanceCommand`, ...), abstracted as parameters: each takes the
phone number, its parsed arguments and the state, and returns the reply,
the new state and the effects it performed.  The claims about
`processCommand` concern its dispatch and PIN gating, which hold for
every handler behaviour, so the theorems quantify over this record. -/
structure Handlers where
  create : String → DB → String × DB × List Effect
  balance : String → DB → String × DB × List Effect
  send : String → ℚ → String → String → DB → String × DB × List Effect
  history : String → DB → String × DB × List Effect
  setupPinH : String → DB → String × DB × List Effect
  verifyPinH : String → String → DB → String × DB × List Effect
  addContactH : String → String → String → DB → String × DB × List Effect
  listContactsH : String → DB → String × DB × List Effect
  enable2FA : String → DB → String × DB × List Effect
  disable2FA : String → DB → String × DB × List Effect
  notifications : String → List (String × Bool) → DB → String × DB × List Effect
  tokens : DB → String × DB × List Effect

/-- `processCommand(phoneNumber, message)` (commandParser.ts lines
168-253): log the inbound message (`logSmsMessage`, an INSERT into
`message_logs`), parse, then dispatch; BALANCE, SEND and HISTORY are
gated on `requirePin`, and when the gate fails the handler is not
invoked — the gate's message is returned with the state otherwise
untouched.  `UNKNOWN` returns the static help text. -/
def processCommand (hs : Handlers) (db : DB) (phone message : String) :
    String × DB × List Effect :=
  let db := { db with messageLogs := db.messageLogs ++
    [{ phoneNumber := phone, content := message, direction := "INBOUND" }] }
  let p := parseCommand message
  let gateMsg : PinCheck → String := fun pc =>
    pc.message.getD "Security verification required. Send SETUP PIN to secure your wallet."
  match p.command with
  | .CREATE => hs.create phone db
  | .BALANCE =>
    let pinCheck := requirePin db phone
    if ¬ pinCheck.verified then (gateMsg pinCheck, db, []) else hs.balance phone db
  | .SEND =>
    let pinCheck := requirePin db phone
    if ¬ pinCheck.verified then (gateMsg pinCheck, db, [])
    else hs.send phone (p.amount.getD 0) (p.tokenType.getD "") (p.recipient.getD "") db
  | .HISTORY =>
    let pinCheck := requirePin db phone
    if ¬ pinCheck.verified then (gateMsg pinCheck, db, []) else hs.history phone db
  | .SETUP_PIN => hs.setupPinH phone db
  | .VERIFY_PIN => hs.verifyPinH phone (p.pin.getD "") db
  | .ADD_CONTACT =>
    hs.addContactH phone (p.contactAlias.getD "") (p.walletAddress.getD "") db
  | .LIST_CONTACTS => hs.listContactsH phone db
  | .ENABLE_2FA => hs.enable2FA phone db
  | .DISABLE_2FA => hs.disable2FA phone db
  | .NOTIFICATIONS => hs.notifications phone p.notifSettings db
  | .TOKENS => hs.tokens db
  | .UNKNOWN => (helpMessage, db, [])

/-! ## Shared auxiliary definitions for the theorems -/

/-- Number of transaction rows recorded under a given network signature. -/
def sigCount (db : DB) (sig : String) : Nat :=
  (db.transactions.filter (fun t => t.signature = some sig)).length

/-- A sequence of drain invocations, each with its own clock reading,
delivery outcomes and batch limit, applied in order. -/
def drainMany : List (Nat × (NotifRow → DeliveryOutcome) × Nat) → List NotifRow → List NotifRow
  | [], rows => rows
  | (now, deliver, budget) :: rest, rows =>
    drainMany rest (processNotificationQueue now deliver budget rows)

/-! ## Concrete fixtures used by witnesses and counterexamples -/

def exUser : UserRow :=
  ⟨1, "+15550001111", some "123456", true, false,
   [("transactions", true), ("security", true), ("marketing", false)]⟩

def exUserUnverified : UserRow := { exUser with pinVerified := false }

def exUserNoPin : UserRow := { exUser with pin := none, pinVerified := false }

def exUserOptOut : UserRow :=
  { exUser with prefs := [("transactions", false), ("security", true), ("marketing", false)] }

def exWallet : WalletRow :=
  ⟨10, 1, "PK1PK1PK1PK1PK1PK1PK1PK1PK1PK1PK", true, 0⟩

def exDB : DB := ⟨[exUser], [exWallet], [], [], [], []⟩

def exDBUnverified : DB := { exDB with users := [exUserUnverified] }

def exDBNoPin : DB := { exDB with users := [exUserNoPin] }

def exDBOptOut : DB := { exDB with users := [exUserOptOut] }

def exRecip : String := "RECIP1RECIP1RECIP1RECIP1RECIP1RE"

def exSendEnv : SendEnv :=
  { now := 7, validAddress := fun _ => true, decrypt := .ok (),
    solBalance := fun _ => 100, sendSol := fun _ _ => .ok "SIGSEND1",
    getTokenBySymbol := fun _ => none, tokenBalance := fun _ _ => 0,
    sendSplToken := fun _ _ _ => .error "rpc error", commit := none }

def exSendEnvCommitFails : SendEnv := { exSendEnv with commit := some "connection lost" }

def exIncoming : IncomingTx :=
  ⟨"PK1PK1PK1PK1PK1PK1PK1PK1PK1PK1PK", "SENDERXSENDERXSENDERXSENDERXSEND", 2, "SOL", "SIGA"⟩

/-- State after one direct `recordIncomingTransaction` call on `exDB`. -/
def exDBAfterRec1 : DB :=
  (recordIncomingTransaction 5 exDB exIncoming.recipientAddress
    exIncoming.senderAddress exIncoming.amount exIncoming.tokenType
    exIncoming.signature).2

/-- State after a second identical call. -/
def exDBAfterRec2 : DB :=
  (recordIncomingTransaction 6 exDBAfterRec1 exIncoming.recipientAddress
    exIncoming.senderAddress exIncoming.amount exIncoming.tokenType
    exIncoming.signature).2

/-- A queued notification two failures away from exhaustion. -/
def exNotifRow : NotifRow :=
  ⟨1, "TRANSACTION", "m", false, 2, 3, some 0, 0, none⟩

/-- Trivial handler instantiation: every handler reports that it ran. -/
def exHandlers : Handlers :=
  { create := fun _ d => ("ran", d, [.walletCreate]),
    balance := fun _ d => ("ran", d, [.balanceQuery]),
    send := fun _ _ _ _ d => ("ran", d, [.sendAttempt]),
    history := fun _ d => ("ran", d, [.historyRead]),
    setupPinH := fun _ d => ("ran", d, [.pinSetup]),
    verifyPinH := fun _ _ d => ("ran", d, [.pinVerify]),
    addContactH := fun _ _ _ d => ("ran", d, [.contactWrite]),
    listContactsH := fun _ d => ("ran", d, [.contactsRead]),
    enable2FA := fun _ d => ("ran", d, [.twoFactorOn]),
    disable2FA := fun _ d => ("ran", d, [.twoFactorOff]),
    notifications := fun _ _ d => ("ran", d, [.prefWrite]),
    tokens := fun d => ("ran", d, [.listTokens]) }

def exTx (n : Nat) : TxRow :=
  ⟨10, "SEND", "SOL", 1, some "R", none, some (toString n), "COMPLETED", n⟩

def exDBHist : DB := { exDB with transactions := (List.range 15).map exTx }

/-! ## C1: counterexample — `recordIncomingTransaction` is not idempotent -/

/-- C1 counterexample: calling `recordIncomingTransaction` twice with the
same signature `"SIGA"` and a known recipient wallet succeeds both times
and leaves TWO transaction rows and TWO queued notifications for that
signature, refuting "after all calls exactly one Transaction Record with
signature s exists, at most one notification was enqueued". -/
theorem recordIncoming_twice_two_rows :
    (recordIncomingTransaction 6 exDBAfterRec1 exIncoming.recipientAddress
      exIncoming.senderAddress exIncoming.amount exIncoming.tokenType
      exIncoming.signature).1 = true ∧
    sigCount exDBAfterRec2 "SIGA" = 2 ∧
    exDBAfterRec2.notifQueue.length = 2 := by decide

/-! ## C3: the transaction-category opt-out does not suppress the alert -/

/-- C3, behaviour at the failing input: `exUserOptOut` has
`notification_preferences.transactions = false`, the SOL send succeeds
and records exactly one COMPLETED row with the returned signature, yet a
TRANSACTION notification row is still enqueued, because
`queueNotification` looks up the preference key `"transaction"` (the
lowercased enum value) while the preferences JSON stores the key
`"transactions"`. -/
theorem send_notifies_despite_optout :
    exUserOptOut.prefs.lookup "transactions" = some false ∧
    exUserOptOut.prefs.lookup "transaction" = none ∧
    (sendTokens exSendEnv exDBOptOut "+15550001111" 1 "SOL" exRecip).1.success = true ∧
    ((sendTokens exSendEnv exDBOptOut "+15550001111" 1 "SOL" exRecip).2.transactions.filter
      (fun t => t.signature = some "SIGSEND1" ∧ t.status = "COMPLETED")).length = 1 ∧
    ((sendTokens exSendEnv exDBOptOut "+15550001111" 1 "SOL" exRecip).2.notifQueue.filter
      (fun n => n.userId = 1 ∧ n.notifType = "TRANSACTION")).length = 1 := by decide

/-! ## C4: the COMPLETED insert and the notification enqueue are not atomic -/

/-- C4, behaviour at the failing input: the ledger submission returns
signature `"SIGSEND1"`, then the COMMIT on the client connection throws.
The catch block rolls the settlement transaction back, so no COMPLETED
row exists — but the notification row, inserted through the pool
(`db.query`) rather than the transaction client, survives: the "both or
neither" atomicity the claim states does not hold. -/
theorem send_commit_failure_leaves_orphan_notification :
    (sendTokens exSendEnvCommitFails exDB "+15550001111" 1 "SOL" exRecip).1.success = false ∧
    (sendTokens exSendEnvCommitFails exDB "+15550001111" 1 "SOL" exRecip).2.transactions = [] ∧
    ((sendTokens exSendEnvCommitFails exDB "+15550001111" 1 "SOL" exRecip).2.notifQueue.filter
      (fun n => n.userId = 1 ∧ n.notifType = "TRANSACTION")).length = 1 := by decide

/-! ## C2: counterexample — `verifyPin` accepts a code with trailing spaces -/

/-- C2 counterexample: with stored PIN `"123456"`, the candidate
`"123456 "` (trailing space) is not the stored PIN, yet `verifyPin`
succeeds on it, because both sides are space-padded to a common length
before the constant-time comparison. -/
theorem verifyPin_trailing_space_accepted :
    "123456 " ≠ "123456" ∧
    (verifyPin 4 exDBUnverified "+15550001111" "123456 ").1.success = true := by decide

/-! ## C6: counterexample — a thrown failure at the retry cap schedules nothing -/

/-- C6 counterexample: `exNotifRow` is due (`retry_count = 2 <
max_retries = 3`); when the delivery attempt throws, the drain increments
the count to 3 and sets `next_retry_at = NULL` instead of scheduling the
next attempt `2^3` minutes later, refuting "every delivery failure for a
not-yet-terminal row ... schedules its next attempt strictly later than
now". -/
theorem drain_throw_at_cap_schedules_nothing :
    dueForRetry 5 exNotifRow = true ∧
    processNotificationQueue 5 (fun _ => DeliveryOutcome.threw) 50 [exNotifRow] =
      [{ exNotifRow with retryCount := 3, nextRetryAt := none }] := by decide

/-! ## C5: counterexample — a blocked command still appends to message_logs -/

/-- C5 counterexample: the user's PIN is unverified and `BALANCE` is
refused, yet the persistent state is not unchanged: `processCommand`
first logs the inbound message, appending a `message_logs` row. -/
theorem blocked_command_still_logs :
    (parseCommand "BALANCE").command = CommandType.BALANCE ∧
    exUserUnverified.pinVerified = false ∧
    (processCommand exHandlers exDBUnverified "+15550001111" "BALANCE").2.1 ≠ exDBUnverified ∧
    (processCommand exHandlers exDBUnverified "+15550001111" "BALANCE").2.1.messageLogs.length =
      exDBUnverified.messageLogs.length + 1 := by decide

/-! ## C2 (amended): exact characterisation of the `verifyPin` comparison -/

/-- Space-padding two lists to each other's length equates them exactly
when one is the other extended by trailing spaces. -/
lemma padEnd_eq_iff (a b : List Char) :
    padEnd a b.length = padEnd b a.length ↔
      ∃ k, a = b ++ List.replicate k ' ' ∨ b = a ++ List.replicate k ' ' := by
  constructor
  · intro h
    rcases le_total a.length b.length with hle | hle
    · refine ⟨b.length - a.length, Or.inr ?_⟩
      have hb : padEnd b a.length = b := by
        simp [padEnd, Nat.sub_eq_zero_of_le hle]
      rw [hb] at h
      exact h.symm
    · refine ⟨a.length - b.length, Or.inl ?_⟩
      have ha : padEnd a b.length = a := by
        simp [padEnd, Nat.sub_eq_zero_of_le hle]
      rw [ha] at h
      exact h
  · rintro ⟨k, h | h⟩
    · subst h
      simp [padEnd, Nat.sub_eq_zero_of_le (Nat.le_add_right b.length k)]
    · subst h
      simp [padEnd, Nat.sub_eq_zero_of_le (Nat.le_add_right a.length k)]

/-- The boolean `pinMatches` succeeds exactly on candidates equal to the
stored PIN up to trailing spaces (on either side). -/
lemma pinMatches_iff (cand stored : String) :
    pinMatches cand stored = true ↔
      ∃ k, cand.toList = stored.toList ++ List.replicate k ' ' ∨
           stored.toList = cand.toList ++ List.replicate k ' ' := by
  rw [show pinMatches cand stored =
        decide (padEnd cand.toList stored.toList.length =
          padEnd stored.toList cand.toList.length) from rfl,
      decide_eq_true_eq]
  exact padEnd_eq_iff _ _

/-- C2 (amended): for a user with a stored PIN, `verifyPin` succeeds if
and only if the candidate equals the stored PIN up to trailing spaces
(one string is the other extended by spaces) — so it does succeed
deterministically on the exact stored code, but also on codes that
differ only in trailing spaces, because both sides are space-padded
before `crypto.timingSafeEqual`. -/
theorem verifyPin_success_iff_trailing_spaces
    (now : Nat) (db : DB) (phone cand storedPin : String) (u : UserRow)
    (hu : lookupUser db phone = some u) (hp : u.pin = some storedPin) :
    (verifyPin now db phone cand).1.success = true ↔
      ∃ k, cand.toList = storedPin.toList ++ List.replicate k ' ' ∨
           storedPin.toList = cand.toList ++ List.replicate k ' ' := by
  rw [← pinMatches_iff]
  unfold verifyPin
  rw [hu]
  dsimp only
  rw [hp]
  dsimp only
  by_cases hm : pinMatches cand storedPin = true
  · by_cases hv : u.pinVerified = true <;> simp [hm, hv]
  · simp [hm]

/-- C2 witness: the amended theorem applied at a concrete state, with
the exact stored PIN as candidate (the `k = 0` case). -/
theorem verifyPin_success_iff_trailing_spaces_witness :
    (verifyPin 4 exDBUnverified "+15550001111" "123456").1.success = true :=
  (verifyPin_success_iff_trailing_spaces 4 exDBUnverified "+15550001111"
      "123456" "123456" exUserUnverified rfl rfl).mpr
    ⟨0, Or.inl (by decide)⟩

/-! ## C6 (amended): retry backoff and terminal exclusion -/

/-- A row whose attempt count has reached its cap never satisfies the
drain's selection predicate, at any clock reading. -/
lemma exhausted_not_due (r : NotifRow) (hr : r.maxRetries ≤ r.retryCount)
    (now : Nat) : dueForRetry now r = false := by
  have hlt : decide (r.retryCount < r.maxRetries) = false := by
    simp [Nat.not_lt.mpr hr]
  unfold dueForRetry
  rw [hlt, Bool.and_false]

/-- A row the selection predicate rejects is carried through the drain
unchanged (it occupies the same spot; in particular it is still there). -/
lemma drain_not_due_mem (now : Nat) (deliver : NotifRow → DeliveryOutcome)
    (r : NotifRow) (hr : dueForRetry now r = false) :
    ∀ budget rows, r ∈ rows →
      r ∈ processNotificationQueue now deliver budget rows := by
  intro budget rows
  induction rows generalizing budget with
  | nil => intro h; exact absurd h (List.not_mem_nil r)
  | cons a as ih =>
    intro hmem
    unfold processNotificationQueue
    by_cases hc : 0 < budget ∧ dueForRetry now a = true
    · rw [if_pos hc]
      rcases List.mem_cons.mp hmem with h | h
      · rw [← h] at hc
        rw [hr] at hc
        exact absurd hc.2 (by simp)
      · exact List.mem_cons_of_mem _ (ih _ h)
    · rw [if_neg hc]
      rcases List.mem_cons.mp hmem with h | h
      · exact h ▸ List.mem_cons_self a _
      · exact List.mem_cons_of_mem _ (ih _ h)

/-- An exhausted row survives every subsequent drain invocation. -/
lemma drainMany_exhausted_mem (r : NotifRow) (hr : r.maxRetries ≤ r.retryCount) :
    ∀ invs rows, r ∈ rows → r ∈ drainMany invs rows := by
  intro invs
  induction invs with
  | nil => intro rows h; exact h
  | cons p rest ih =>
    intro rows h
    obtain ⟨now, deliver, budget⟩ := p
    exact ih _ (drain_not_due_mem now deliver r (exhausted_not_due r hr now)
      budget rows h)

/-- C6 (amended): a delivery failure on a selected row increments the
attempt count to `n = retry_count + 1` and leaves the row unsent; when
the gateway reported failure without throwing, or when `n` is still
below the cap, the next attempt is scheduled at exactly `now + 2^n`
minutes, strictly later than now; a thrown failure that reaches the cap
instead clears the next-attempt time (no schedule).  In all cases, any
unsent row whose count has reached its cap is never again selected by
the drain's predicate and survives every subsequent drain invocation. -/
theorem notification_retry_backoff
    (now : Nat) (deliver : NotifRow → DeliveryOutcome) (r : NotifRow)
    (hdue : dueForRetry now r = true) (hfail : deliver r ≠ DeliveryOutcome.sent) :
    (applyOutcome now (deliver r) r).retryCount = r.retryCount + 1 ∧
    (applyOutcome now (deliver r) r).isSent = false ∧
    (deliver r = DeliveryOutcome.failed ∨ r.retryCount + 1 < r.maxRetries →
      (applyOutcome now (deliver r) r).nextRetryAt =
        some (now + 2 ^ (r.retryCount + 1)) ∧
      now < now + 2 ^ (r.retryCount + 1)) ∧
    (deliver r = DeliveryOutcome.threw → r.maxRetries ≤ r.retryCount + 1 →
      (applyOutcome now (deliver r) r).nextRetryAt = none) ∧
    (∀ s : NotifRow, s.isSent = false → s.maxRetries ≤ s.retryCount →
      (∀ now2, dueForRetry now2 s = false) ∧
      ∀ invs rows, s ∈ rows → s ∈ drainMany invs rows) := by
  have hsent : r.isSent = false := by
    unfold dueForRetry at hdue
    rcases Bool.and_eq_true_iff.mp hdue with ⟨h1, _⟩
    rcases Bool.and_eq_true_iff.mp h1 with ⟨h2, _⟩
    simpa using h2
  have hpos : now < now + 2 ^ (r.retryCount + 1) := by
    have h1 : 0 < 2 ^ (r.retryCount + 1) := Nat.pos_pow_of_pos _ (by decide)
    omega
  have hlast : ∀ s : NotifRow, s.isSent = false → s.maxRetries ≤ s.retryCount →
      (∀ now2, dueForRetry now2 s = false) ∧
      ∀ invs rows, s ∈ rows → s ∈ drainMany invs rows :=
    fun s _ hcap =>
      ⟨fun now2 => exhausted_not_due s hcap now2, drainMany_exhausted_mem s hcap⟩
  cases ho : deliver r with
  | sent => exact absurd ho hfail
  | failed =>
    refine ⟨rfl, hsent, fun _ => ⟨rfl, hpos⟩, ?_, hlast⟩
    intro h
    exact absurd h (by decide)
  | threw =>
    have hthrew : applyOutcome now DeliveryOutcome.threw r =
        if r.maxRetries ≤ r.retryCount + 1 then
          { r with retryCount := r.retryCount + 1, isSent := false,
                   nextRetryAt := none }
        else
          { r with retryCount := r.retryCount + 1,
                   nextRetryAt := some (now + 2 ^ (r.retryCount + 1)) } := rfl
    by_cases hcap : r.maxRetries ≤ r.retryCount + 1
    · rw [hthrew, if_pos hcap]
      refine ⟨rfl, rfl, ?_, fun _ _ => rfl, hlast⟩
      intro h
      rcases h with h | h
      · exact absurd h (by decide)
      · exact absurd hcap (by omega)
    · rw [hthrew, if_neg hcap]
      refine ⟨rfl, hsent, fun _ => ⟨rfl, hpos⟩, ?_, hlast⟩
      intro _ h
      exact absurd h hcap

/-- C6 witness: the amended theorem applied to `exNotifRow` at clock 5
with a non-throwing delivery failure. -/
theorem notification_retry_backoff_witness :
    (applyOutcome 5 DeliveryOutcome.failed exNotifRow).retryCount =
      exNotifRow.retryCount + 1 :=
  (notification_retry_backoff 5 (fun _ => DeliveryOutcome.failed) exNotifRow
    (by decide) (by decide)).1

/-! ## C1 (amended): signature dedup lives in the webhook handler -/

/-- Queueing a notification touches only the notification queue. -/
lemma queueNotification_keeps (now : Nat) (db : DB) (userId : Nat)
    (ntype message : String) :
    ((queueNotification now db userId ntype message).2).transactions = db.transactions ∧
    ((queueNotification now db userId ntype message).2).users = db.users ∧
    ((queueNotification now db userId ntype message).2).wallets = db.wallets ∧
    ((queueNotification now db userId ntype message).2).contacts = db.contacts := by
  unfold queueNotification
  rcases lookupUserById db userId with _ | u
  · exact ⟨rfl, rfl, rfl, rfl⟩
  · dsimp only
    rcases u.prefs.lookup (jsToLower ntype) with _ | b
    · exact ⟨rfl, rfl, rfl, rfl⟩
    · cases b
      · exact ⟨rfl, rfl, rfl, rfl⟩
      · exact ⟨rfl, rfl, rfl, rfl⟩

/-- Same for the formatted transaction notification. -/
lemma queueTransactionNotification_keeps (now : Nat) (db : DB) (userId : Nat)
    (txType : String) (amount : ℚ) (tokenType counterparty : String) :
    ((queueTransactionNotification now db userId txType amount tokenType
        counterparty).2).transactions = db.transactions ∧
    ((queueTransactionNotification now db userId txType amount tokenType
        counterparty).2).wallets = db.wallets :=
  ⟨(queueNotification_keeps now db userId "TRANSACTION" _).1,
   (queueNotification_keeps now db userId "TRANSACTION" _).2.2.1⟩

/-- A signature is present exactly when its record count is positive. -/
lemma hasSignature_iff (db : DB) (sig : String) :
    hasSignature db sig = true ↔ 0 < sigCount db sig := by
  unfold hasSignature sigCount
  rw [List.any_eq_true, List.length_pos]
  constructor
  · rintro ⟨t, ht, hp⟩
    intro hnil
    have : t ∈ db.transactions.filter (fun t => t.signature = some sig) :=
      List.mem_filter.mpr ⟨ht, hp⟩
    rw [hnil] at this
    exact absurd this (List.not_mem_nil t)
  · intro hne
    rcases List.exists_mem_of_ne_nil _ hne with ⟨t, ht⟩
    rcases List.mem_filter.mp ht with ⟨h1, h2⟩
    exact ⟨t, h1, h2⟩

/-- `recordIncomingTransaction` on a known recipient wallet returns true
and inserts exactly one more row carrying the given signature. -/
lemma recordIncoming_sigCount (now : Nat) (db : DB)
    (recip sender : String) (amount : ℚ) (tok sig : String)
    (hw : (db.wallets.find? (fun w => w.publicKey = recip)).isSome) :
    (recordIncomingTransaction now db recip sender amount tok sig).1 = true ∧
    ∀ s2 : String,
      sigCount (recordIncomingTransaction now db recip sender amount tok sig).2 s2 =
        sigCount db s2 + (if s2 = sig then 1 else 0) := by
  rcases hfind : db.wallets.find? (fun w => w.publicKey = recip) with _ | w
  · rw [hfind] at hw
    exact absurd hw (by simp)
  · unfold recordIncomingTransaction
    rw [hfind]
    dsimp only
    refine ⟨rfl, fun s2 => ?_⟩
    have hkeep := (queueTransactionNotification_keeps now db w.userId
      "RECEIVE" amount tok sender).1
    unfold sigCount
    dsimp only
    rw [hkeep, List.filter_append, List.length_append]
    by_cases hs : s2 = sig
    · subst hs
      simp
    · simp [hs, Ne.symm hs]

/-- C1 (amended): `recordIncomingTransaction` itself performs no
signature dedup (each call on a known wallet inserts a row and returns
true), but the transaction webhook handler that wraps it checks for an
existing record with the signature first.  So, starting from a state with
no record of the signature, the first webhook delivery records exactly
one row, and every later delivery of the same event returns the
"already processed" success without inserting or changing anything: after
any number of further deliveries exactly one record with the signature
exists. -/
theorem webhook_recordIncoming_idempotent
    (now : Nat) (db : DB) (a : IncomingTx)
    (hra : a.recipientAddress ≠ "") (hsa : a.senderAddress ≠ "")
    (ham : a.amount ≠ 0) (htt : a.tokenType ≠ "") (hsig : a.signature ≠ "")
    (hw : (db.wallets.find? (fun w => w.publicKey = a.recipientAddress)).isSome)
    (hfresh : sigCount db a.signature = 0) :
    (webhookTransaction now db a).1 = WebhookStatus.success ∧
    ∀ n : Nat,
      sigCount ((fun d => (webhookTransaction now d a).2)^[n]
        (webhookTransaction now db a).2) a.signature = 1 ∧
      (webhookTransaction now ((fun d => (webhookTransaction now d a).2)^[n]
        (webhookTransaction now db a).2) a).1 = WebhookStatus.alreadyProcessed := by
  have hfields : ¬(a.recipientAddress = "" ∨ a.senderAddress = "" ∨
      a.amount = 0 ∨ a.tokenType = "" ∨ a.signature = "") := by
    push_neg
    exact ⟨hra, hsa, ham, htt, hsig⟩
  have hnosig : ¬ hasSignature db a.signature = true := by
    rw [hasSignature_iff, hfresh]
    omega
  have hrec := recordIncoming_sigCount now db a.recipientAddress
    a.senderAddress a.amount a.tokenType a.signature hw
  have hfirst : webhookTransaction now db a =
      ((if (recordIncomingTransaction now db a.recipientAddress a.senderAddress
          a.amount a.tokenType a.signature).1 then WebhookStatus.success
        else WebhookStatus.notFound),
       (recordIncomingTransaction now db a.recipientAddress a.senderAddress
          a.amount a.tokenType a.signature).2) := by
    unfold webhookTransaction
    rw [if_neg hfields, if_neg hnosig]
  have hone : sigCount (webhookTransaction now db a).2 a.signature = 1 := by
    rw [hfirst]
    dsimp only
    rw [hrec.2 a.signature, hfresh, if_pos rfl]
  have hstep : ∀ d : DB, sigCount d a.signature = 1 →
      webhookTransaction now d a = (WebhookStatus.alreadyProcessed, d) := by
    intro d hd
    have : hasSignature d a.signature = true := by
      rw [hasSignature_iff, hd]
      omega
    unfold webhookTransaction
    rw [if_neg hfields, if_pos this]
  have hiter : ∀ n : Nat,
      (fun d => (webhookTransaction now d a).2)^[n]
        (webhookTransaction now db a).2 = (webhookTransaction now db a).2 := by
    intro n
    induction n with
    | zero => rfl
    | succ n ih =>
      rw [Function.iterate_succ_apply', ih]
      show (webhookTransaction now (webhookTransaction now db a).2 a).2 = _
      rw [hstep _ hone]
  constructor
  · rw [hfirst]
    dsimp only
    rw [hrec.1, if_pos rfl]
  · intro n
    rw [hiter n]
    exact ⟨hone, by rw [hstep _ hone]⟩

/-- C1 witness: the amended theorem at the concrete fixture, two extra
deliveries after the first. -/
theorem webhook_recordIncoming_idempotent_witness :
    sigCount ((fun d => (webhookTransaction 5 d exIncoming).2)^[2]
      (webhookTransaction 5 exDB exIncoming).2) "SIGA" = 1 :=
  ((webhook_recordIncoming_idempotent 5 exDB exIncoming (by decide) (by decide)
      (by decide) (by decide) (by decide) (by decide) (by decide)).2 2).1

/-! ## C5 (amended): the PIN gate blocks BALANCE, SEND and HISTORY -/

/-- C5 (amended): for any handler behaviour, any state and any user whose
PIN is absent or unverified (including unknown users), processing a
BALANCE, SEND or HISTORY command returns exactly the `requirePin`
guidance message, performs no handler effect, and leaves the state
unchanged except for the inbound-message log row that `processCommand`
appends for every message. -/
theorem pin_gate_blocks_unverified
    (hs : Handlers) (db : DB) (phone msg : String)
    (hcmd : (parseCommand msg).command = CommandType.BALANCE ∨
            (parseCommand msg).command = CommandType.SEND ∨
            (parseCommand msg).command = CommandType.HISTORY)
    (hnv : ∀ u, lookupUser db phone = some u →
      u.pin = none ∨ u.pinVerified = false) :
    (requirePin db phone).verified = false ∧
    ∃ m : String, (requirePin db phone).message = some m ∧
      processCommand hs db phone msg =
        (m, { db with messageLogs := db.messageLogs ++
          [{ phoneNumber := phone, content := msg, direction := "INBOUND" }] },
         []) := by
  have hreq : (requirePin db phone).verified = false ∧
      ∃ m, (requirePin db phone).message = some m := by
    unfold requirePin
    rcases hl : lookupUser db phone with _ | u
    · exact ⟨rfl, _, rfl⟩
    · dsimp only
      rcases hpin : u.pin with _ | p
      · exact ⟨rfl, _, rfl⟩
      · rcases hnv u hl with hpn | hpv
        · rw [hpn] at hpin
          cases hpin
        · rw [hpv]
          simp
  rcases hreq with ⟨hver, m, hmsg⟩
  refine ⟨hver, m, hmsg, ?_⟩
  have hsame : requirePin { db with messageLogs := db.messageLogs ++
      [{ phoneNumber := phone, content := msg, direction := "INBOUND" }] } phone =
      requirePin db phone := rfl
  unfold processCommand
  rcases hcmd with h | h | h <;>
    (dsimp only; rw [h]; dsimp only; rw [hsame, hver]; simp [hmsg])

/-- C5 witness: the amended theorem at the unverified fixture with the
BALANCE command. -/
theorem pin_gate_blocks_unverified_witness :
    (requirePin exDBUnverified "+15550001111").verified = false :=
  (pin_gate_blocks_unverified exHandlers exDBUnverified "+15550001111" "BALANCE"
    (Or.inl (by decide))
    (by
      intro u hu
      have h0 : lookupUser exDBUnverified "+15550001111" =
          some exUserUnverified := rfl
      rw [h0] at hu
      injection hu with h1
      rw [← h1]
      exact Or.inr rfl)).1

/-! ## C8: `setupPin` transitions only from the no-PIN state -/

/-- C8: when the looked-up user already has a PIN stored (verified or
not), `setupPin` returns a non-success guidance outcome and the state —
PIN, verified flag, and everything else — is returned unchanged; when the
PIN is absent, it succeeds, returns the fresh PIN, and stores it
unverified on exactly that user row. -/
theorem setupPin_requires_noPin
    (now : Nat) (newPin : String) (db : DB) (phone : String) (u : UserRow)
    (hu : lookupUser db phone = some u) :
    (∀ p, u.pin = some p →
      setupPin now newPin db phone =
        ({ success := false, pin := none,
           message := "PIN already exists. Use VERIFY PIN <your-pin> to verify your PIN." },
         db)) ∧
    (u.pin = none →
      (setupPin now newPin db phone).1.success = true ∧
      (setupPin now newPin db phone).1.pin = some newPin ∧
      (setupPin now newPin db phone).2.users =
        db.users.map (fun v => if v.id = u.id then
          { v with pin := some newPin, pinVerified := false } else v)) := by
  constructor
  · intro p hp
    unfold setupPin
    rw [hu]
    dsimp only
    rw [hp]
  · intro hp
    unfold setupPin
    rw [hu]
    dsimp only
    rw [hp]
    dsimp only
    refine ⟨rfl, rfl, ?_⟩
    have hkeep := (queueNotification_keeps now
      (updateUser db u.id (fun v => { v with pin := some newPin, pinVerified := false }))
      u.id "SECURITY"
      ("SolaText Security: A new PIN has been set up for your account. NEVER share your PIN with anyone.")).2.1
    calc (queueSecurityNotification now
          (updateUser db u.id (fun v => { v with pin := some newPin, pinVerified := false }))
          u.id "A new PIN has been set up for your account. NEVER share your PIN with anyone.").2.users
        = (updateUser db u.id (fun v => { v with pin := some newPin, pinVerified := false })).users :=
          hkeep
      _ = db.users.map (fun v => if v.id = u.id then
            { v with pin := some newPin, pinVerified := false } else v) := rfl

/-- C8 witness: rejection at the fixture whose user already has a PIN. -/
theorem setupPin_requires_noPin_witness :
    setupPin 3 "654321" exDB "+15550001111" =
      ({ success := false, pin := none,
         message := "PIN already exists. Use VERIFY PIN <your-pin> to verify your PIN." },
       exDB) :=
  (setupPin_requires_noPin 3 "654321" exDB "+15550001111" exUser rfl).1 "123456" rfl

/-! ## C9: the interpreter is total and degrades to the help fallback -/

/-- C9: `parseCommand` is a total function into the closed variant type
(by construction — no branch can raise), every `UNKNOWN` intent is
answered with the static help message, and a `SEND` intent always
carries a successfully parsed numeric amount — a malformed amount can
never produce a SEND intent, it falls through to `UNKNOWN`. -/
theorem parseCommand_fallback_and_send_amount
    (hs : Handlers) (db : DB) (phone s : String) :
    ((parseCommand s).command = CommandType.UNKNOWN →
      processCommand hs db phone s =
        (helpMessage, { db with messageLogs := db.messageLogs ++
          [{ phoneNumber := phone, content := s, direction := "INBOUND" }] },
         [])) ∧
    ((parseCommand s).command = CommandType.SEND →
      ∃ q : ℚ, (parseCommand s).amount = some q) := by
  constructor
  · intro h
    unfold processCommand
    dsimp only
    rw [h]
  · intro h
    unfold parseCommand at h ⊢
    dsimp only at h ⊢
    by_cases h1 : jsToUpper (jsTrim s) = "CREATE"
    · rw [if_pos h1] at h; exact absurd h (by decide)
    rw [if_neg h1] at h ⊢
    by_cases h2 : jsToUpper (jsTrim s) = "BALANCE"
    · rw [if_pos h2] at h; exact absurd h (by decide)
    rw [if_neg h2] at h ⊢
    by_cases h3 : jsToUpper (jsTrim s) = "HISTORY"
    · rw [if_pos h3] at h; exact absurd h (by decide)
    rw [if_neg h3] at h ⊢
    by_cases h4 : jsToUpper (jsTrim s) = "CONTACTS"
    · rw [if_pos h4] at h; exact absurd h (by decide)
    rw [if_neg h4] at h ⊢
    by_cases h5 : jsToUpper (jsTrim s) = "SETUP PIN"
    · rw [if_pos h5] at h; exact absurd h (by decide)
    rw [if_neg h5] at h ⊢
    by_cases h6 : jsToUpper (jsTrim s) = "ENABLE 2FA"
    · rw [if_pos h6] at h; exact absurd h (by decide)
    rw [if_neg h6] at h ⊢
    by_cases h7 : jsToUpper (jsTrim s) = "DISABLE 2FA"
    · rw [if_pos h7] at h; exact absurd h (by decide)
    rw [if_neg h7] at h ⊢
    by_cases h8 : jsToUpper (jsTrim s) = "TOKENS"
    · rw [if_pos h8] at h; exact absurd h (by decide)
    rw [if_neg h8] at h ⊢
    by_cases h9 : jsStartsWith (jsToUpper (jsTrim s)) "VERIFY PIN " = true ∧
        (jsSplitSpace (jsTrim s)).length = 3
    · rw [if_pos h9] at h; dsimp only at h; exact absurd h (by decide)
    rw [if_neg h9] at h ⊢
    by_cases h10 : jsStartsWith (jsToUpper (jsTrim s)) "ADD CONTACT " = true ∧
        4 ≤ (jsSplitSpace (jsTrim s)).length
    · rw [if_pos h10] at h; dsimp only at h; exact absurd h (by decide)
    rw [if_neg h10] at h ⊢
    by_cases h11 : parseCommand.notifParse (jsToUpper (jsTrim s)) (jsTrim s) ≠ []
    · rw [if_pos h11] at h; dsimp only at h; exact absurd h (by decide)
    rw [if_neg h11] at h ⊢
    by_cases h12 : jsStartsWith (jsToUpper (jsTrim s)) "SEND " = true ∧
        parseCommand.sendParse (jsTrim s) ≠ none
    · rw [if_pos h12] at h ⊢
      rcases hsp : parseCommand.sendParse (jsTrim s) with _ | ⟨q, tok, recip⟩
      · exact absurd hsp h12.2
      · exact ⟨q, rfl⟩
    · rw [if_neg h12] at h
      exact absurd h (by decide)

/-- C9 witness: `"SEND X SOL TO Y"` has a malformed amount, resolves to
`UNKNOWN`, and processing it yields the help message with no effect
beyond the inbound log row. -/
theorem parseCommand_fallback_witness :
    processCommand exHandlers exDB "+15550001111" "SEND X SOL TO Y" =
      (helpMessage, { exDB with messageLogs := exDB.messageLogs ++
        [{ phoneNumber := "+15550001111", content := "SEND X SOL TO Y",
           direction := "INBOUND" }] }, []) :=
  (parseCommand_fallback_and_send_amount exHandlers exDB "+15550001111"
    "SEND X SOL TO Y").1 (by decide)

/-! ## C10: history is truncated to 10, newest first, empty without a wallet -/

/-- C10: `getTransactionHistory` returns at most 10 rows, ordered newest
first by creation time; they all belong to the user's active wallet; any
of the wallet's rows left out is no newer than anything returned (the
result is the 10 most recent); and a user without an active wallet gets
the empty list, not a failure. -/
theorem getTransactionHistory_spec (db : DB) (phone : String) :
    (getTransactionHistory db phone).length ≤ 10 ∧
    List.Pairwise (fun a b : TxRow => b.createdAt ≤ a.createdAt)
      (getTransactionHistory db phone) ∧
    (getWalletByPhoneNumber db phone = none →
      getTransactionHistory db phone = []) ∧
    (∀ w, getWalletByPhoneNumber db phone = some w →
      (∀ t ∈ getTransactionHistory db phone,
        t ∈ db.transactions ∧ t.walletId = w.id) ∧
      (∀ t ∈ db.transactions, t.walletId = w.id →
        t ∉ getTransactionHistory db phone →
        ∀ u ∈ getTransactionHistory db phone,
          t.createdAt ≤ u.createdAt)) := by
  haveI htot : IsTotal TxRow (fun a b => b.createdAt ≤ a.createdAt) :=
    ⟨fun a b => le_total b.createdAt a.createdAt⟩
  haveI htr : IsTrans TxRow (fun a b => b.createdAt ≤ a.createdAt) :=
    ⟨fun _ _ _ hab hbc => le_trans hbc hab⟩
  unfold getTransactionHistory
  rcases hw : getWalletByPhoneNumber db phone with _ | w
  · dsimp only
    refine ⟨by simp, by simp, fun _ => rfl, fun w2 hww => ?_⟩
    cases hww
  · dsimp only
    have hS : List.Pairwise (fun a b : TxRow => b.createdAt ≤ a.createdAt)
        ((db.transactions.filter (fun t => t.walletId = w.id)).insertionSort
          (fun a b => b.createdAt ≤ a.createdAt)) :=
      List.sorted_insertionSort _ _
    have hperm := List.perm_insertionSort
      (fun a b : TxRow => b.createdAt ≤ a.createdAt)
      (db.transactions.filter (fun t => t.walletId = w.id))
    refine ⟨List.length_take_le _ _, hS.sublist (List.take_sublist _ _), ?_, ?_⟩
    · intro hc
      cases hc
    intro w2 hww
    injection hww with hww2
    subst hww2
    constructor
    · intro t ht
      have ht2 := hperm.mem_iff.mp (List.mem_of_mem_take ht)
      rcases List.mem_filter.mp ht2 with ⟨hmem, hwid⟩
      exact ⟨hmem, by simpa using hwid⟩
    · intro t hmem hwid hnot u hu
      have htS : t ∈ (db.transactions.filter
          (fun t => t.walletId = w.id)).insertionSort
            (fun a b => b.createdAt ≤ a.createdAt) :=
        hperm.mem_iff.mpr (List.mem_filter.mpr ⟨hmem, by simpa using hwid⟩)
      rw [← List.take_append_drop 10 ((db.transactions.filter
          (fun t => t.walletId = w.id)).insertionSort
            (fun a b => b.createdAt ≤ a.createdAt))] at htS hS
      rcases List.mem_append.mp htS with hin | hin
      · exact absurd hin hnot
      · exact (List.pairwise_append.mp hS).2.2 u hu t hin

/-- C10 witness: a phone number with no wallet row yields the empty
history. -/
theorem getTransactionHistory_spec_witness :
    getTransactionHistory exDBHist "+19998887777" = [] :=
  (getTransactionHistory_spec exDBHist "+19998887777").2.2.1 (by decide)

/-! ## C7: contact upsert is a case-insensitive overwrite -/

/-- The address-overwriting map commutes with filtering on the contact
key, since the update changes neither `userId` nor `aliasName`. -/
lemma filter_map_update (uid : Nat) (na addr : String) (l : List ContactRow) :
    (l.map (fun c => if c.userId = uid ∧ c.aliasName = na
        then { c with walletAddress := addr } else c)).filter
      (fun c => c.userId = uid ∧ c.aliasName = na) =
    (l.filter (fun c => c.userId = uid ∧ c.aliasName = na)).map
      (fun c => { c with walletAddress := addr }) := by
  induction l with
  | nil => rfl
  | cons a as ih =>
    by_cases hp : a.userId = uid ∧ a.aliasName = na
    · simp only [Bool.decide_and] at ih ⊢
      simp [hp, ih]
    · simp only [Bool.decide_and] at ih ⊢
      simp [hp, ih]

/-- One `addContact` call with a valid address on an existing user leaves
exactly one contact row under the normalised key, holding the given
address; the users table is untouched. -/
lemma addContact_key_filter (validAddress : String → Bool) (db : DB)
    (phone aliasText addr : String) (u : UserRow)
    (hu : lookupUser db phone = some u) (hv : validAddress addr = true)
    (hlen : (db.contacts.filter (fun c => c.userId = u.id ∧
      c.aliasName = normalizeAlias aliasText)).length ≤ 1) :
    ((addContact validAddress db phone aliasText addr).2).contacts.filter
      (fun c => c.userId = u.id ∧ c.aliasName = normalizeAlias aliasText) =
      [⟨u.id, normalizeAlias aliasText, addr⟩] ∧
    ((addContact validAddress db phone aliasText addr).2).users = db.users := by
  unfold addContact
  rw [if_neg (not_not_intro hv), hu]
  dsimp only
  by_cases hex : db.contacts.any (fun c => c.userId = u.id ∧
      c.aliasName = normalizeAlias aliasText) = true
  · rw [if_pos hex]
    refine ⟨?_, rfl⟩
    dsimp only
    rw [filter_map_update]
    have hpos : 0 < (db.contacts.filter (fun c => c.userId = u.id ∧
        c.aliasName = normalizeAlias aliasText)).length := by
      rcases List.any_eq_true.mp hex with ⟨c, hc, hpc⟩
      have : c ∈ db.contacts.filter (fun c => c.userId = u.id ∧
          c.aliasName = normalizeAlias aliasText) :=
        List.mem_filter.mpr ⟨hc, hpc⟩
      exact List.length_pos.mpr (List.ne_nil_of_mem this)
    have hone : (db.contacts.filter (fun c => c.userId = u.id ∧
        c.aliasName = normalizeAlias aliasText)).length = 1 := by omega
    rcases List.length_eq_one.mp hone with ⟨c, hc⟩
    rw [hc]
    have hcmem : c ∈ db.contacts.filter (fun c => c.userId = u.id ∧
        c.aliasName = normalizeAlias aliasText) := by
      rw [hc]; exact List.mem_singleton_self c
    have hpc := (List.mem_filter.mp hcmem).2
    rw [decide_eq_true_eq] at hpc
    obtain ⟨cu, ca, cw⟩ := c
    obtain ⟨hcu, hca⟩ := hpc
    dsimp only at hcu hca
    rw [hcu, hca]
    rfl
  · rw [if_neg hex]
    refine ⟨?_, rfl⟩
    dsimp only
    rw [List.filter_append]
    have hnil : db.contacts.filter (fun c => c.userId = u.id ∧
        c.aliasName = normalizeAlias aliasText) = [] := by
      rw [List.filter_eq_nil_iff]
      intro c hc
      intro hpc
      exact absurd (List.any_eq_true.mpr ⟨c, hc, hpc⟩) hex
    rw [hnil]
    simp

/-- C7: for one user, adding alias `a1 → addrA` then `a2 → addrB`, where
the two aliases normalise (trim + uppercase) to the same key and both
addresses pass validation, leaves exactly one contact row under that key
and its stored address is `addrB` — the second add is a case-insensitive
overwrite, given the per-user uniqueness of the key that the database
schema enforces (at most one matching row initially). -/
theorem addContact_upsert_overwrites
    (validAddress : String → Bool) (db : DB) (phone a1 a2 addrA addrB : String)
    (u : UserRow) (hu : lookupUser db phone = some u)
    (hA : validAddress addrA = true) (hB : validAddress addrB = true)
    (hn : normalizeAlias a1 = normalizeAlias a2)
    (huniq : (db.contacts.filter (fun c => c.userId = u.id ∧
        c.aliasName = normalizeAlias a1)).length ≤ 1) :
    ((addContact validAddress (addContact validAddress db phone a1 addrA).2
        phone a2 addrB).2).contacts.filter
      (fun c => c.userId = u.id ∧ c.aliasName = normalizeAlias a1) =
      [⟨u.id, normalizeAlias a1, addrB⟩] := by
  obtain ⟨h1, husers⟩ := addContact_key_filter validAddress db phone a1 addrA
    u hu hA huniq
  have hu1 : lookupUser (addContact validAddress db phone a1 addrA).2 phone =
      some u := by
    unfold lookupUser
    rw [husers]
    exact hu
  have hlen1 : (((addContact validAddress db phone a1 addrA).2).contacts.filter
      (fun c => c.userId = u.id ∧ c.aliasName = normalizeAlias a2)).length ≤ 1 := by
    rw [← hn, h1]
    simp
  obtain ⟨h2, _⟩ := addContact_key_filter validAddress
    (addContact validAddress db phone a1 addrA).2 phone a2 addrB u hu1 hB hlen1
  rw [hn, h2]

/-- C7 witness: `" mama "` then `"MAMA"` at the fixture, ending with one
row `MAMA → AddrB`. -/
theorem addContact_upsert_overwrites_witness :
    ((addContact (fun _ => true)
        (addContact (fun _ => true) exDB "+15550001111" " mama " "AddrA").2
        "+15550001111" "MAMA" "AddrB").2).contacts.filter
      (fun c => c.userId = exUser.id ∧ c.aliasName = normalizeAlias " mama ") =
      [⟨exUser.id, normalizeAlias " mama ", "AddrB"⟩] :=
  addContact_upsert_overwrites (fun _ => true) exDB "+15550001111" " mama " "MAMA"
    "AddrA" "AddrB" exUser rfl rfl rfl (by decide) (by decide)

end SoLite
